import Mathlib

/-!
Verification of the dumpcap pipe-protocol codec and of the session
supervision model (Capture and Statistics sessions).

Byte streams are modelled as lists of natural numbers (each element a byte
value below 256, as produced by the wire).  Go strings are byte strings and
are therefore also modelled as lists of naturals.  Fallible operations
return an `Except` value.
-/

namespace Dumpcap

/-- Message type codes, taken from the source constants. -/
def BadFilterMsg : Nat := 66

def DropCountMsg : Nat := 68

def ErrMsg : Nat := 69

def FileMsg : Nat := 70

def PacketCountMsg : Nat := 80

def QuitMsg : Nat := 81

def SuccessMsg : Nat := 83

/-- PipeMessage represents messages sent by dumpcap to inform about various
events.  Field layout follows the source struct. -/
structure PipeMessage where
  type : Nat
  DropCount : Nat
  PacketCount : Nat
  Text : List Nat
deriving DecidableEq, Repr

/-- Errors the codec can produce.  `eof` models io.EOF, `unexpectedEOF`
models io.ErrUnexpectedEOF (both produced by io.ReadFull), and
`parseError` models a strconv.ParseUint failure. -/
inductive PipeErr
  | eof
  | unexpectedEOF
  | parseError
deriving DecidableEq, Repr

/-- strconv.ParseUint with base 10 and bitSize 0 (that is, 64 bits): the
input must be a nonempty string of decimal digits whose value fits in an
unsigned 64-bit integer. -/
def parseUint10 (s : List Nat) : Option Nat :=
  if s = [] then none
  else if s.all (fun c => decide (48 ≤ c) && decide (c ≤ 57)) then
    let v := s.foldl (fun acc c => acc * 10 + (c - 48)) 0
    if v < 2 ^ 64 then some v else none
  else none

/-- parsePipeMsg reads one message from the given input and returns its
type, its associated message text and the remaining input.

The header is four bytes, one for the type of message, three for the size
of the following message text (big-endian).  io.ReadFull returns io.EOF if
no byte at all could be read and io.ErrUnexpectedEOF on a partial read. -/
def parsePipeMsg (input : List Nat) : Except PipeErr (Nat × List Nat × List Nat) :=
  match input with
  | [] => .error .eof
  | [_] => .error .unexpectedEOF
  | [_, _] => .error .unexpectedEOF
  | [_, _, _] => .error .unexpectedEOF
  | msgType :: s1 :: s2 :: s3 :: rest =>
    let msgSize := s1 * 65536 + s2 * 256 + s3
    if msgSize = 0 then .ok (msgType, [], rest)
    else if rest.length = 0 then .error .eof
    else if rest.length < msgSize then .error .unexpectedEOF
    else
      let buffer := rest.take msgSize
      let buffer2 := if buffer.getLast? = some 0 then buffer.dropLast else buffer
      .ok (msgType, buffer2, rest.drop msgSize)

/-- parsePipeErrMsg reads the message text associated with an ErrMsg: a
primary and a secondary nested message whose texts are concatenated. -/
def parsePipeErrMsg (input : List Nat) : Except PipeErr (List Nat) :=
  match parsePipeMsg input with
  | .error e => .error e
  | .ok (_, err1, rest) =>
    match parsePipeMsg rest with
    | .error e => .error e
    | .ok (_, err2, _) => .ok (err1 ++ err2)

/-- readPipeMsg completely decodes a message sent by dumpcap, returning the
decoded message and the remaining input. -/
def readPipeMsg (input : List Nat) : Except PipeErr (PipeMessage × List Nat) :=
  match parsePipeMsg input with
  | .error e => .error e
  | .ok (msgType, msgBuffer, rest) =>
    let msg : PipeMessage :=
      { type := msgType, DropCount := 0, PacketCount := 0, Text := msgBuffer }
    if msgType = DropCountMsg then
      match parseUint10 msg.Text with
      | none => .error .parseError
      | some i => .ok ({ msg with DropCount := i }, rest)
    else if msgType = ErrMsg then
      match parsePipeErrMsg msgBuffer with
      | .error e => .error e
      | .ok errmsg => .ok ({ msg with Text := errmsg }, rest)
    else if msgType = PacketCountMsg then
      match parseUint10 msg.Text with
      | none => .error .parseError
      | some i => .ok ({ msg with PacketCount := i }, rest)
    else .ok (msg, rest)

/-- generateMsg encodes one frame the way the test suite does: the text is
NUL-terminated, preceded by a four-byte header made of the type byte and a
24-bit big-endian length. -/
def generateMsg (msgType : Nat) (msgText : List Nat) : List Nat :=
  let payload := msgText ++ [0]
  let msgLen := payload.length
  [msgType, msgLen / 65536 % 256, msgLen / 256 % 256, msgLen % 256] ++ payload

/-- generateErrorMsg nests two framed sub-messages inside an Err frame, the
way the test suite does. -/
def generateErrorMsg (msgText1 msgText2 : List Nat) : List Nat :=
  generateMsg ErrMsg (generateMsg ErrMsg msgText1 ++ generateMsg ErrMsg msgText2)

/-- Error produced by parseStatisticsLine: either the wrong number of
columns (the "illegal output from dumpcap" error) or a strconv failure on a
count column. -/
inductive StatErr
  | illegalOutput
  | numError
deriving DecidableEq, Repr

/-- DeviceStatistics represents one line of statistics as reported by
dumpcap. -/
structure DeviceStatistics where
  Name : List Nat
  PacketCount : Nat
  DropCount : Nat
deriving DecidableEq, Repr, Inhabited

/-- findSplit locates the first occurrence of the separator byte, returning
the part before it and the part after it. -/
def findSplit (sep : Nat) : List Nat → Option (List Nat × List Nat)
  | [] => none
  | c :: cs =>
    if c = sep then some ([], cs)
    else
      match findSplit sep cs with
      | none => none
      | some (a, b) => some (c :: a, b)

/-- splitN3 models strings.SplitN with count 3 and a single-byte
separator: it splits around the first two occurrences of the separator,
the last returned part keeping any further separators; with fewer
separators, fewer parts are returned. -/
def splitN3 (sep : Nat) (s : List Nat) : List (List Nat) :=
  match findSplit sep s with
  | none => [s]
  | some (a, b) =>
    match findSplit sep b with
    | none => [a, b]
    | some (c, d) => [a, c, d]

/-- parseStatisticsLine splits one line (without its newline) at the first
two tab bytes and parses the second and third columns as base-10 unsigned
64-bit integers. -/
def parseStatisticsLine (line : List Nat) : Except StatErr (List Nat × Nat × Nat) :=
  match splitN3 9 line with
  | [devname, col1, col2] =>
    match parseUint10 col1 with
    | none => .error .numError
    | some packetcount =>
      match parseUint10 col2 with
      | none => .error .numError
      | some dropcount => .ok (devname, packetcount, dropcount)
  | _ => .error .illegalOutput

/-! ## Session model

The Capture and Statistics sessions each own a child process handle, one
pipe, an output channel, a single-slot exit-status channel and a quit
channel.  Wait() and the background decode goroutines are modelled as pure
functions producing the sequence of observable events they perform. -/

/-- Errors observable by a session: a process-exit failure from the child
Wait, a pipe-codec error, a statistics-line error or a scanner error. -/
inductive GoError
  | exitFailure
  | pipeDecode (e : PipeErr)
  | statDecode (e : StatErr)
  | scanFailure
deriving DecidableEq, Repr

/-- A run-time panic: close of an already-closed channel. -/
inductive GoPanic
  | closeOfClosedChannel
deriving DecidableEq, Repr

/-- Events performed by Wait(). -/
inductive WaitEvent
  | childWait
  | closeQuit
  | recvExitStatus
deriving DecidableEq, Repr

instance {ε α : Type} [DecidableEq ε] [DecidableEq α] : DecidableEq (Except ε α) :=
  fun x y =>
    match x, y with
    | .error a, .error b =>
      if h : a = b then .isTrue (by rw [h]) else .isFalse (by simp [h])
    | .ok a, .ok b =>
      if h : a = b then .isTrue (by rw [h]) else .isFalse (by simp [h])
    | .error _, .ok _ => .isFalse (by simp)
    | .ok _, .error _ => .isFalse (by simp)

/-- Outcome of a call to Wait(): the events performed in order, the result
(either a panic or the returned error value, none meaning nil) and whether
the quit channel is closed afterwards. -/
structure WaitOutcome where
  events : List WaitEvent
  result : Except GoPanic (Option GoError)
  quitClosed : Bool
deriving DecidableEq, Repr

/-- Capture.Wait: first waits on the child process; a non-nil child error
is returned immediately.  Otherwise the quit channel is closed (a panic if
it is already closed) and the value received from the exit-status channel
is returned (the recorded terminal error, or none if the decode goroutine
closed the channel without sending). -/
def Capture.Wait (quitClosed : Bool) (childWaitErr : Option GoError)
    (exitStatusSlot : Option GoError) : WaitOutcome :=
  match childWaitErr with
  | some e => ⟨[.childWait], .ok (some e), quitClosed⟩
  | none =>
    if quitClosed then ⟨[.childWait, .closeQuit], .error .closeOfClosedChannel, quitClosed⟩
    else ⟨[.childWait, .closeQuit, .recvExitStatus], .ok exitStatusSlot, true⟩

/-- Statistics.Wait: identical to Capture.Wait in the source. -/
def Statistics.Wait (quitClosed : Bool) (childWaitErr : Option GoError)
    (exitStatusSlot : Option GoError) : WaitOutcome :=
  match childWaitErr with
  | some e => ⟨[.childWait], .ok (some e), quitClosed⟩
  | none =>
    if quitClosed then ⟨[.childWait, .closeQuit], .error .closeOfClosedChannel, quitClosed⟩
    else ⟨[.childWait, .closeQuit, .recvExitStatus], .ok exitStatusSlot, true⟩

/-- Events performed by the capture decode goroutine. -/
inductive CapEvent
  | sendMsg (m : PipeMessage)
  | sendExitStatus (e : PipeErr)
  | recvQuit
  | closeExitStatus
  | closeMessages
deriving DecidableEq, Repr

/-- On a successful parse the remaining input is strictly shorter: at least
the four header bytes were consumed. -/
theorem parsePipeMsg_rest_length {input : List Nat} {t : Nat} {buf rest : List Nat}
    (h : parsePipeMsg input = .ok (t, buf, rest)) : rest.length < input.length := by
  match input with
  | [] => simp [parsePipeMsg] at h
  | [_] => simp [parsePipeMsg] at h
  | [_, _] => simp [parsePipeMsg] at h
  | [_, _, _] => simp [parsePipeMsg] at h
  | a :: b :: c :: d :: r =>
    simp only [parsePipeMsg] at h
    split at h
    · cases h
      simp
      omega
    · split at h
      · exact absurd h (by simp)
      · split at h
        · exact absurd h (by simp)
        · cases h
          simp only [List.length_drop, List.length_cons]
          omega

/-- On a successful decode the remaining input is strictly shorter. -/
theorem readPipeMsg_rest_length {input : List Nat} {m : PipeMessage} {rest : List Nat}
    (h : readPipeMsg input = .ok (m, rest)) : rest.length < input.length := by
  unfold readPipeMsg at h
  split at h
  · exact absurd h (by simp)
  · rename_i t buf r0 hp
    dsimp only at h
    split at h
    · split at h
      · exact absurd h (by simp)
      · cases h
        exact parsePipeMsg_rest_length hp
    · split at h
      · split at h
        · exact absurd h (by simp)
        · cases h
          exact parsePipeMsg_rest_length hp
      · split at h
        · split at h
          · exact absurd h (by simp)
          · cases h
            exact parsePipeMsg_rest_length hp
        · cases h
          exact parsePipeMsg_rest_length hp

/-- The capture decode goroutine, as a trace of its observable events.  One
message at a time is decoded from the stderr stream; an io.EOF decode
failure is swallowed as a benign end of stream (an os.PathError, raised
only when the caller closes the real pipe, cannot arise on an in-memory
stream), any other failure is delivered once to the exit-status channel.
A decoded message is handed to the select between sending on the Messages
channel and the quit channel; quitPlan lists, one entry per iteration,
whether the quit case wins that select.  The deferred closes of the
exit-status channel and of the Messages channel run on every return
path. -/
def captureLoop (input : List Nat) (quitPlan : List Bool) : List CapEvent :=
  match _h : readPipeMsg input with
  | .error e =>
    if e = .eof then [.closeExitStatus, .closeMessages]
    else [.sendExitStatus e, .closeExitStatus, .closeMessages]
  | .ok (m, rest) =>
    match quitPlan with
    | true :: _ => [.recvQuit, .closeExitStatus, .closeMessages]
    | false :: qs => .sendMsg m :: captureLoop rest qs
    | [] => .sendMsg m :: captureLoop rest []
termination_by input.length
decreasing_by
  all_goals exact readPipeMsg_rest_length _h

/-- Scanner errors after the line loop: an os.PathError (the pipe was
closed while the scanner was blocking, swallowed as benign) or any other
error (delivered to the exit-status channel). -/
inductive ScanErr
  | pathError
  | otherError
deriving DecidableEq, Repr

/-- Events performed by the statistics decode goroutine. -/
inductive StatEvent
  | sendStat (ds : DeviceStatistics)
  | sendExitStat (e : StatErr)
  | sendScanErr (e : ScanErr)
  | recvQuit
  | closeExitStat
  | closeStats
deriving DecidableEq, Repr

/-- The statistics decode goroutine, as a trace of its observable events.
Lines are scanned in order; the first malformed line delivers its error to
the exit-status channel and stops the loop.  After the scanner is
exhausted, a scanner error that is not an os.PathError is delivered.  The
deferred closes run on every return path. -/
def statsLoop (lines : List (List Nat)) (quitPlan : List Bool)
    (scanErr : Option ScanErr) : List StatEvent :=
  match lines with
  | [] =>
    match scanErr with
    | none => [.closeExitStat, .closeStats]
    | some e =>
      if e = .pathError then [.closeExitStat, .closeStats]
      else [.sendScanErr e, .closeExitStat, .closeStats]
  | l :: ls =>
    match parseStatisticsLine l with
    | .error e => [.sendExitStat e, .closeExitStat, .closeStats]
    | .ok (devname, packetcount, dropcount) =>
      match quitPlan with
      | true :: _ => [.recvQuit, .closeExitStat, .closeStats]
      | false :: qs => .sendStat ⟨devname, packetcount, dropcount⟩ :: statsLoop ls qs scanErr
      | [] => .sendStat ⟨devname, packetcount, dropcount⟩ :: statsLoop ls [] scanErr

/-- The statistics value the decode goroutine builds from one line. -/
def statOf (l : List Nat) : DeviceStatistics :=
  match parseStatisticsLine l with
  | .ok (devname, packetcount, dropcount) => ⟨devname, packetcount, dropcount⟩
  | .error _ => default

/-! ## Helper lemmas about the codec -/

/-- Parsing an encoded frame (with arbitrary trailing input) recovers the
type, the text and the trailing input, provided the NUL-terminated payload
fits the 24-bit length field. -/
theorem parsePipeMsg_generateMsg (t : Nat) (text rest : List Nat)
    (hlen : text.length + 1 < 2 ^ 24) :
    parsePipeMsg (generateMsg t text ++ rest) = .ok (t, text, rest) := by
  have hplen : (text ++ [0]).length = text.length + 1 := by simp
  have hsz : (text.length + 1) / 65536 % 256 * 65536 + (text.length + 1) / 256 % 256 * 256
      + (text.length + 1) % 256 = text.length + 1 := by omega
  have happ : generateMsg t text ++ rest
      = t :: ((text ++ [0]).length / 65536 % 256) :: ((text ++ [0]).length / 256 % 256)
        :: ((text ++ [0]).length % 256) :: ((text ++ [0]) ++ rest) := by
    simp [generateMsg]
  rw [happ]
  simp only [parsePipeMsg, hplen, hsz]
  rw [if_neg (by omega)]
  rw [if_neg (by simp)]
  rw [if_neg (by simp)]
  rw [List.take_left' hplen, List.drop_left' hplen]
  rw [List.getLast?_concat]
  rw [if_pos rfl, List.dropLast_concat]

/-- Unfolding of readPipeMsg once the frame header and payload have been
parsed successfully. -/
theorem readPipeMsg_of_parse_ok {input : List Nat} {t : Nat} {buf rest : List Nat}
    (hp : parsePipeMsg input = .ok (t, buf, rest)) :
    readPipeMsg input =
      (if t = DropCountMsg then
        match parseUint10 buf with
        | none => .error .parseError
        | some i => .ok (⟨t, i, 0, buf⟩, rest)
      else if t = ErrMsg then
        match parsePipeErrMsg buf with
        | .error e => .error e
        | .ok errmsg => .ok (⟨t, 0, 0, errmsg⟩, rest)
      else if t = PacketCountMsg then
        match parseUint10 buf with
        | none => .error .parseError
        | some i => .ok (⟨t, 0, i, buf⟩, rest)
      else .ok (⟨t, 0, 0, buf⟩, rest)) := by
  unfold readPipeMsg
  rw [hp]

/-- Claim C6: decoding from an exhausted stream yields io.EOF (never a
decode error); decoding truncated mid-header or mid-payload yields an
I/O-level error (io.EOF when zero payload bytes are available,
io.ErrUnexpectedEOF otherwise) and never a partial message. -/
theorem decode_eof_and_truncation :
    readPipeMsg ([] : List Nat) = .error .eof ∧
    (∀ input : List Nat, input ≠ [] → input.length < 4 →
      readPipeMsg input = .error .unexpectedEOF) ∧
    (∀ (t s1 s2 s3 : Nat) (rest : List Nat),
      0 < s1 * 65536 + s2 * 256 + s3 →
      rest.length < s1 * 65536 + s2 * 256 + s3 →
      readPipeMsg (t :: s1 :: s2 :: s3 :: rest) =
        .error (if rest.length = 0 then .eof else .unexpectedEOF)) := by
  refine ⟨rfl, ?_, ?_⟩
  · intro input h1 h2
    match input with
    | [] => exact absurd rfl h1
    | [_] => rfl
    | [_, _] => rfl
    | [_, _, _] => rfl
    | _ :: _ :: _ :: _ :: _ =>
      simp at h2
      omega
  · intro t s1 s2 s3 rest hpos hlt
    have hne : ¬(s1 * 65536 + s2 * 256 + s3 = 0) := by omega
    by_cases h0 : rest.length = 0
    · simp [readPipeMsg, parsePipeMsg, hne, h0]
    · simp [readPipeMsg, parsePipeMsg, hne, h0, hlt]

/-- Witness for claim C6 at concrete truncated inputs. -/
theorem decode_eof_and_truncation_w :
    readPipeMsg [70] = .error .unexpectedEOF ∧
    readPipeMsg [70, 0, 0, 5, 1, 2] = .error .unexpectedEOF ∧
    readPipeMsg [70, 0, 0, 5] = .error .eof := by
  obtain ⟨_, h2, h3⟩ := decode_eof_and_truncation
  refine ⟨h2 [70] (by decide) (by decide), ?_, ?_⟩
  · simpa using h3 70 0 0 5 [1, 2] (by decide) (by decide)
  · simpa using h3 70 0 0 5 [] (by decide) (by decide)

/-- Claim C4: a DropCount- or PacketCount-typed frame whose payload does
not parse as a base-10 unsigned integer fails with a parse error, which is
distinct from the plain I/O errors; when the payload parses, the numeric
field selected by the type carries exactly the parsed integer. -/
theorem count_frame_decode :
    (∀ (input : List Nat) (t : Nat) (buf rest : List Nat),
      parsePipeMsg input = .ok (t, buf, rest) →
      t = DropCountMsg ∨ t = PacketCountMsg →
      (parseUint10 buf = none → readPipeMsg input = .error .parseError) ∧
      (∀ k, parseUint10 buf = some k →
        readPipeMsg input =
          .ok (⟨t, if t = DropCountMsg then k else 0,
                if t = PacketCountMsg then k else 0, buf⟩, rest))) ∧
    PipeErr.parseError ≠ PipeErr.eof ∧ PipeErr.parseError ≠ PipeErr.unexpectedEOF := by
  refine ⟨?_, by decide, by decide⟩
  intro input t buf rest hp ht
  rw [readPipeMsg_of_parse_ok hp]
  rcases ht with h | h <;> subst h
  · constructor
    · intro hnone
      simp [DropCountMsg, hnone]
    · intro k hk
      simp [DropCountMsg, PacketCountMsg, hk]
  · constructor
    · intro hnone
      simp [DropCountMsg, ErrMsg, PacketCountMsg, hnone]
    · intro k hk
      simp [DropCountMsg, ErrMsg, PacketCountMsg, hk]

/-- Witness for claim C4: a non-numeric DropCount payload fails, a numeric
PacketCount payload is parsed exactly. -/
theorem count_frame_decode_w :
    readPipeMsg (generateMsg DropCountMsg [97, 98, 99]) = .error .parseError ∧
    readPipeMsg (generateMsg PacketCountMsg [49, 50, 51]) =
      .ok (⟨PacketCountMsg, 0, 123, [49, 50, 51]⟩, []) := by
  obtain ⟨h, -, -⟩ := count_frame_decode
  constructor
  · exact (h (generateMsg DropCountMsg [97, 98, 99]) DropCountMsg [97, 98, 99] []
      (by decide) (Or.inl rfl)).1 (by decide)
  · simpa using (h (generateMsg PacketCountMsg [49, 50, 51]) PacketCountMsg [49, 50, 51] []
      (by decide) (Or.inr rfl)).2 123 (by decide)

/-- Claim C1 is false as stated: a DropCount-typed frame whose NUL-free
text is not numeric does not round-trip to a message with the original
type and text; decoding fails instead. -/
theorem encode_decode_roundtrip_cx :
    (0 : Nat) ∉ ([120, 121] : List Nat) ∧
    readPipeMsg (generateMsg DropCountMsg [120, 121]) = .error .parseError := by
  decide

/-- Claim C1 (amended): encoding then decoding round-trips the type and
the text for every frame whose NUL-terminated payload fits the 24-bit
length field, except that DropCount- and PacketCount-typed frames
round-trip only when the text parses as a base-10 unsigned integer (in
which case the numeric field is filled as well), and an Err frame built
from two nested sub-frames decodes to the concatenation of the two
sub-texts. -/
theorem encode_decode_roundtrip (msgType : Nat) (msgText : List Nat)
    (hlen : msgText.length + 1 < 2 ^ 24) :
    (msgType ≠ DropCountMsg → msgType ≠ ErrMsg → msgType ≠ PacketCountMsg →
      readPipeMsg (generateMsg msgType msgText) =
        .ok (⟨msgType, 0, 0, msgText⟩, [])) ∧
    (∀ k, parseUint10 msgText = some k →
      readPipeMsg (generateMsg DropCountMsg msgText) =
        .ok (⟨DropCountMsg, k, 0, msgText⟩, []) ∧
      readPipeMsg (generateMsg PacketCountMsg msgText) =
        .ok (⟨PacketCountMsg, 0, k, msgText⟩, [])) ∧
    (∀ msgText2 : List Nat, msgText.length + msgText2.length + 11 < 2 ^ 24 →
      readPipeMsg (generateErrorMsg msgText msgText2) =
        .ok (⟨ErrMsg, 0, 0, msgText ++ msgText2⟩, [])) := by
  have hp : parsePipeMsg (generateMsg msgType msgText) = .ok (msgType, msgText, []) := by
    simpa using parsePipeMsg_generateMsg msgType msgText [] hlen
  refine ⟨?_, ?_, ?_⟩
  · intro h1 h2 h3
    rw [readPipeMsg_of_parse_ok hp]
    rw [if_neg h1, if_neg h2, if_neg h3]
  · intro k hk
    have hpd : parsePipeMsg (generateMsg DropCountMsg msgText)
        = .ok (DropCountMsg, msgText, []) := by
      simpa using parsePipeMsg_generateMsg DropCountMsg msgText [] hlen
    have hpp : parsePipeMsg (generateMsg PacketCountMsg msgText)
        = .ok (PacketCountMsg, msgText, []) := by
      simpa using parsePipeMsg_generateMsg PacketCountMsg msgText [] hlen
    constructor
    · rw [readPipeMsg_of_parse_ok hpd]
      simp [DropCountMsg, hk]
    · rw [readPipeMsg_of_parse_ok hpp]
      simp [DropCountMsg, ErrMsg, PacketCountMsg, hk]
  · intro msgText2 hlen2
    have hin1 : parsePipeMsg (generateMsg ErrMsg msgText ++ generateMsg ErrMsg msgText2)
        = .ok (ErrMsg, msgText, generateMsg ErrMsg msgText2) :=
      parsePipeMsg_generateMsg ErrMsg msgText (generateMsg ErrMsg msgText2) hlen
    have hin2 : parsePipeMsg (generateMsg ErrMsg msgText2) = .ok (ErrMsg, msgText2, []) := by
      simpa using parsePipeMsg_generateMsg ErrMsg msgText2 []
        (by simp [generateMsg] at hlen2 ⊢; omega)
    have hpe : parsePipeErrMsg (generateMsg ErrMsg msgText ++ generateMsg ErrMsg msgText2)
        = .ok (msgText ++ msgText2) := by
      unfold parsePipeErrMsg
      rw [hin1]
      dsimp only
      rw [hin2]
    have houter : parsePipeMsg (generateErrorMsg msgText msgText2)
        = .ok (ErrMsg, generateMsg ErrMsg msgText ++ generateMsg ErrMsg msgText2, []) := by
      unfold generateErrorMsg
      simpa using parsePipeMsg_generateMsg ErrMsg
        (generateMsg ErrMsg msgText ++ generateMsg ErrMsg msgText2) []
        (by simp [generateMsg]; omega)
    rw [readPipeMsg_of_parse_ok houter]
    rw [if_neg (by decide : ¬(ErrMsg = DropCountMsg)), if_pos rfl]
    rw [hpe]

/-- Witness for claim C1 at concrete frames of each kind. -/
theorem encode_decode_roundtrip_w :
    readPipeMsg (generateMsg FileMsg [102, 111, 111]) =
      .ok (⟨FileMsg, 0, 0, [102, 111, 111]⟩, []) ∧
    readPipeMsg (generateMsg DropCountMsg [52, 53, 54]) =
      .ok (⟨DropCountMsg, 456, 0, [52, 53, 54]⟩, []) ∧
    readPipeMsg (generateErrorMsg [97] [98]) = .ok (⟨ErrMsg, 0, 0, [97, 98]⟩, []) := by
  refine ⟨?_, ?_, ?_⟩
  · exact (encode_decode_roundtrip FileMsg [102, 111, 111] (by decide)).1
      (by decide) (by decide) (by decide)
  · exact ((encode_decode_roundtrip FileMsg [52, 53, 54] (by decide)).2.1 456 (by decide)).1
  · simpa using (encode_decode_roundtrip FileMsg [97] (by decide)).2.2 [98] (by decide)

/-- Claim C5 is false as stated: a successfully decoded PacketCount
message keeps the raw digits in its Text field, so two fields are
populated and Text is not left at its zero value. -/
theorem message_field_population_cx :
    readPipeMsg (generateMsg PacketCountMsg [49, 50, 51]) =
      .ok (⟨PacketCountMsg, 0, 123, [49, 50, 51]⟩, []) ∧
    ([49, 50, 51] : List Nat) ≠ [] ∧ (123 : Nat) ≠ 0 := by
  decide

/-- Claim C5 (amended): for every message produced by the codec each
numeric field is populated only for its own type (the other numeric field
is left at zero), but the Text field is not left at its zero value for
count-typed messages: it retains the digit string the numeric field was
parsed from. -/
theorem message_field_population :
    ∀ (input : List Nat) (m : PipeMessage) (rest : List Nat),
      readPipeMsg input = .ok (m, rest) →
      (m.PacketCount ≠ 0 → m.type = PacketCountMsg) ∧
      (m.DropCount ≠ 0 → m.type = DropCountMsg) ∧
      (m.type = PacketCountMsg → m.DropCount = 0 ∧ parseUint10 m.Text = some m.PacketCount) ∧
      (m.type = DropCountMsg → m.PacketCount = 0 ∧ parseUint10 m.Text = some m.DropCount) := by
  intro input m rest h
  unfold readPipeMsg at h
  split at h
  · exact absurd h (by simp)
  · rename_i t buf r0 hp
    dsimp only at h
    split at h
    · rename_i ht
      split at h
      · exact absurd h (by simp)
      · rename_i i hi
        cases h
        subst ht
        simp [DropCountMsg, PacketCountMsg, hi]
    · split at h
      · rename_i hnd ht
        split at h
        · exact absurd h (by simp)
        · cases h
          subst ht
          simp [DropCountMsg, PacketCountMsg, ErrMsg]
      · split at h
        · rename_i hnd hne ht
          split at h
          · exact absurd h (by simp)
          · rename_i i hi
            cases h
            subst ht
            simp [DropCountMsg, PacketCountMsg, hi]
        · rename_i hnd hne hnp
          cases h
          simp [hnd, hnp]

/-- Witness for claim C5 at a concrete PacketCount frame. -/
theorem message_field_population_w :
    (⟨PacketCountMsg, 0, 123, [49, 50, 51]⟩ : PipeMessage).DropCount = 0 ∧
    parseUint10 [49, 50, 51] = some 123 := by
  have h := message_field_population (generateMsg PacketCountMsg [49, 50, 51])
    ⟨PacketCountMsg, 0, 123, [49, 50, 51]⟩ [] (by decide)
  simpa using h.2.2.1 rfl

/-- Claim C3 (amended): an Err-typed frame decodes its payload as exactly
two nested framed sub-messages, headers discarded, Text set to the
concatenation of the two sub-texts in order; when fewer than two
sub-messages can be decoded from the payload (including an empty payload),
readPipeMsg fails with the I/O-style error propagated from the nested
parse (io.EOF or io.ErrUnexpectedEOF) rather than a distinct decode error,
and never returns a message. -/
theorem err_nested_decode :
    ∀ (input buf rest : List Nat),
      parsePipeMsg input = .ok (ErrMsg, buf, rest) →
      (∀ (t1 : Nat) (e1 r1 : List Nat) (t2 : Nat) (e2 r2 : List Nat),
        parsePipeMsg buf = .ok (t1, e1, r1) →
        parsePipeMsg r1 = .ok (t2, e2, r2) →
        readPipeMsg input = .ok (⟨ErrMsg, 0, 0, e1 ++ e2⟩, rest)) ∧
      (∀ e, parsePipeMsg buf = .error e → readPipeMsg input = .error e) ∧
      (∀ (t1 : Nat) (e1 r1 : List Nat) (e : PipeErr),
        parsePipeMsg buf = .ok (t1, e1, r1) →
        parsePipeMsg r1 = .error e → readPipeMsg input = .error e) := by
  intro input buf rest hp
  rw [readPipeMsg_of_parse_ok hp]
  rw [if_neg (by decide : ¬(ErrMsg = DropCountMsg)), if_pos rfl]
  refine ⟨?_, ?_, ?_⟩
  · intro t1 e1 r1 t2 e2 r2 h1 h2
    unfold parsePipeErrMsg
    rw [h1]
    dsimp only
    rw [h2]
  · intro e h1
    unfold parsePipeErrMsg
    rw [h1]
  · intro t1 e1 r1 e h1 h2
    unfold parsePipeErrMsg
    rw [h1]
    dsimp only
    rw [h2]

/-- Witness for claim C3: a well-formed nested Err frame decodes to the
concatenated sub-texts, and an Err frame carrying only one sub-message
fails with the propagated io.EOF. -/
theorem err_nested_decode_w :
    readPipeMsg (generateErrorMsg [104, 105] [33]) =
      .ok (⟨ErrMsg, 0, 0, [104, 105, 33]⟩, []) ∧
    readPipeMsg (generateMsg ErrMsg (generateMsg ErrMsg [104])) = .error .eof := by
  constructor
  · have h := err_nested_decode (generateErrorMsg [104, 105] [33])
      (generateMsg ErrMsg [104, 105] ++ generateMsg ErrMsg [33]) [] (by decide)
    simpa using h.1 ErrMsg [104, 105] (generateMsg ErrMsg [33]) ErrMsg [33] []
      (by decide) (by decide)
  · have h := err_nested_decode (generateMsg ErrMsg (generateMsg ErrMsg [104]))
      (generateMsg ErrMsg [104]) [] (by decide)
    exact h.2.2 ErrMsg [104] [] .eof (by decide) (by decide)

/-- Claim C2: a first call to Wait() returns nil exactly when the child
process exit was clean and the terminal-error slot is empty; a process
exit failure is returned directly, before and independently of the
terminal-error slot (the slot is never received from on that path). -/
theorem wait_nil_iff :
    ∀ childErr exitSlot : Option GoError,
      ((Capture.Wait false childErr exitSlot).result = .ok none ↔
        childErr = none ∧ exitSlot = none) ∧
      ((Statistics.Wait false childErr exitSlot).result = .ok none ↔
        childErr = none ∧ exitSlot = none) ∧
      (∀ e, (Capture.Wait false (some e) exitSlot).result = .ok (some e) ∧
        (Capture.Wait false (some e) exitSlot).events = [.childWait] ∧
        (Statistics.Wait false (some e) exitSlot).result = .ok (some e) ∧
        (Statistics.Wait false (some e) exitSlot).events = [.childWait]) := by
  intro childErr exitSlot
  cases childErr <;> simp [Capture.Wait, Statistics.Wait]

/-- Witness for claim C2: a clean run returns nil, a failed child exit is
returned directly. -/
theorem wait_nil_iff_w :
    (Capture.Wait false none none).result = .ok none ∧
    (Statistics.Wait false (some .exitFailure) none).result = .ok (some .exitFailure) := by
  refine ⟨?_, ?_⟩
  · exact ((wait_nil_iff none none).1).mpr ⟨rfl, rfl⟩
  · exact ((wait_nil_iff (some .exitFailure) none).2.2 GoError.exitFailure).2.2.1

/-- Claim C9 is false on the failure path: when the child process exit
wait returns an error, Wait() returns it immediately and never signals
cancellation (the quit channel is not closed). -/
theorem wait_cancel_order_cx :
    (Capture.Wait false (some .exitFailure) none).events = [.childWait] ∧
    WaitEvent.closeQuit ∉ (Capture.Wait false (some .exitFailure) none).events ∧
    (Statistics.Wait false (some .exitFailure) none).events = [.childWait] ∧
    WaitEvent.closeQuit ∉ (Statistics.Wait false (some .exitFailure) none).events := by
  decide

/-- Claim C9 (amended): Wait() first blocks on the process-exit wait; on a
clean exit it then closes the quit channel and finally returns the
recorded terminal error or nil; when the process-exit wait fails, Wait()
returns that failure immediately without signalling cancellation. -/
theorem wait_cancel_order :
    ∀ exitSlot : Option GoError,
      Capture.Wait false none exitSlot =
        ⟨[.childWait, .closeQuit, .recvExitStatus], .ok exitSlot, true⟩ ∧
      Statistics.Wait false none exitSlot =
        ⟨[.childWait, .closeQuit, .recvExitStatus], .ok exitSlot, true⟩ ∧
      (∀ e, Capture.Wait false (some e) exitSlot = ⟨[.childWait], .ok (some e), false⟩ ∧
        Statistics.Wait false (some e) exitSlot = ⟨[.childWait], .ok (some e), false⟩) := by
  intro exitSlot
  exact ⟨rfl, rfl, fun e => ⟨rfl, rfl⟩⟩

/-- Witness for claim C9 at a concrete slot value. -/
theorem wait_cancel_order_w :
    Capture.Wait false none none =
      ⟨[.childWait, .closeQuit, .recvExitStatus], .ok none, true⟩ :=
  (wait_cancel_order none).1

/-- Claim C10: Wait() is not idempotent: a first clean-exit call closes
the quit channel, and a second call whose process-exit wait also returns
nil panics by closing the already-closed quit channel. -/
theorem wait_second_call_panics :
    ∀ exitSlot1 exitSlot2 : Option GoError,
      (Capture.Wait false none exitSlot1).quitClosed = true ∧
      (Capture.Wait (Capture.Wait false none exitSlot1).quitClosed none exitSlot2).result =
        .error .closeOfClosedChannel ∧
      (Statistics.Wait false none exitSlot1).quitClosed = true ∧
      (Statistics.Wait (Statistics.Wait false none exitSlot1).quitClosed none
        exitSlot2).result = .error .closeOfClosedChannel := by
  intro exitSlot1 exitSlot2
  exact ⟨rfl, rfl, rfl, rfl⟩

/-- Witness for claim C10 at concrete slot values. -/
theorem wait_second_call_panics_w :
    (Capture.Wait (Capture.Wait false none none).quitClosed none none).result =
      .error .closeOfClosedChannel :=
  (wait_second_call_panics none none).2.1

/-! ## Helper lemmas about the decode goroutines -/

/-- Unfolding of the capture loop when decoding fails. -/
theorem captureLoop_error {input : List Nat} {e : PipeErr}
    (h : readPipeMsg input = .error e) (quitPlan : List Bool) :
    captureLoop input quitPlan =
      if e = .eof then [.closeExitStatus, .closeMessages]
      else [.sendExitStatus e, .closeExitStatus, .closeMessages] := by
  rw [captureLoop.eq_def]
  split
  · rename_i e2 heq
    rw [h] at heq
    injection heq with heq
    rw [heq]
  · rename_i m rest heq
    rw [h] at heq
    exact absurd heq (by simp)

/-- Unfolding of the capture loop when decoding succeeds. -/
theorem captureLoop_ok {input : List Nat} {m : PipeMessage} {rest : List Nat}
    (h : readPipeMsg input = .ok (m, rest)) (quitPlan : List Bool) :
    captureLoop input quitPlan =
      (match quitPlan with
      | true :: _ => [.recvQuit, .closeExitStatus, .closeMessages]
      | false :: qs => .sendMsg m :: captureLoop rest qs
      | [] => .sendMsg m :: captureLoop rest []) := by
  rw [captureLoop.eq_def]
  split
  · rename_i e2 heq
    rw [h] at heq
    exact absurd heq (by simp)
  · rename_i m2 rest2 heq
    rw [h] at heq
    have h1 : m = m2 ∧ rest = rest2 := by
      have := heq
      simp at this
      exact this
    obtain ⟨hm, hr⟩ := h1
    rw [hm, hr]

/-- Every run of the capture loop ends with the two deferred closes, and
the Messages channel is closed nowhere else. -/
theorem captureLoop_shape :
    ∀ (n : Nat) (input : List Nat) (quitPlan : List Bool), input.length ≤ n →
      ∃ pre, captureLoop input quitPlan = pre ++ [.closeExitStatus, .closeMessages] ∧
        CapEvent.closeMessages ∉ pre := by
  intro n
  induction n with
  | zero =>
    intro input plan hle
    have hnil : input = [] := List.length_eq_zero.mp (Nat.le_zero.mp hle)
    subst hnil
    rw [captureLoop_error (rfl : readPipeMsg [] = .error .eof) plan]
    exact ⟨[], by simp, by simp⟩
  | succ n ih =>
    intro input plan hle
    cases hr : readPipeMsg input with
    | error e =>
      rw [captureLoop_error hr plan]
      by_cases he : e = .eof
      · rw [if_pos he]
        exact ⟨[], by simp, by simp⟩
      · rw [if_neg he]
        exact ⟨[.sendExitStatus e], by simp, by simp⟩
    | ok p =>
      obtain ⟨m, rest⟩ := p
      rw [captureLoop_ok hr plan]
      have hrest : rest.length ≤ n := by
        have := readPipeMsg_rest_length hr
        omega
      match plan with
      | true :: _ => exact ⟨[.recvQuit], by simp, by simp⟩
      | false :: qs =>
        obtain ⟨pre, hpre, hnot⟩ := ih rest qs hrest
        exact ⟨.sendMsg m :: pre, by simp [hpre], by simp [hnot]⟩
      | [] =>
        obtain ⟨pre, hpre, hnot⟩ := ih rest [] hrest
        exact ⟨.sendMsg m :: pre, by simp [hpre], by simp [hnot]⟩

/-- Every run of the statistics loop ends with the two deferred closes,
and the Stats channel is closed nowhere else. -/
theorem statsLoop_shape :
    ∀ (lines : List (List Nat)) (quitPlan : List Bool) (scanErr : Option ScanErr),
      ∃ pre, statsLoop lines quitPlan scanErr = pre ++ [.closeExitStat, .closeStats] ∧
        StatEvent.closeStats ∉ pre := by
  intro lines
  induction lines with
  | nil =>
    intro plan scanErr
    match scanErr with
    | none => exact ⟨[], rfl, by simp⟩
    | some e =>
      by_cases he : e = .pathError
      · refine ⟨[], ?_, by simp⟩
        simp [statsLoop, he]
      · refine ⟨[.sendScanErr e], ?_, by simp⟩
        simp [statsLoop, he]
  | cons l ls ih =>
    intro plan scanErr
    cases hp : parseStatisticsLine l with
    | error e =>
      refine ⟨[.sendExitStat e], ?_, by simp⟩
      simp [statsLoop, hp]
    | ok r =>
      obtain ⟨devname, packetcount, dropcount⟩ := r
      match plan with
      | true :: qs =>
        refine ⟨[.recvQuit], ?_, by simp⟩
        simp [statsLoop, hp]
      | false :: qs =>
        obtain ⟨pre, hpre, hnot⟩ := ih qs scanErr
        refine ⟨.sendStat ⟨devname, packetcount, dropcount⟩ :: pre, ?_, by simp [hnot]⟩
        simp [statsLoop, hp, hpre]
      | [] =>
        obtain ⟨pre, hpre, hnot⟩ := ih [] scanErr
        refine ⟨.sendStat ⟨devname, packetcount, dropcount⟩ :: pre, ?_, by simp [hnot]⟩
        simp [statsLoop, hp, hpre]

/-- Claim C8: on every execution path (clean end of stream, decode error,
cancellation via the quit signal) the output channel of each decode
goroutine is closed exactly once, as the final action of the goroutine, so
no send on it can ever follow the close. -/
theorem output_channel_closed_once :
    (∀ (input : List Nat) (quitPlan : List Bool),
      (captureLoop input quitPlan).count CapEvent.closeMessages = 1 ∧
      (captureLoop input quitPlan).getLast? = some CapEvent.closeMessages) ∧
    (∀ (lines : List (List Nat)) (quitPlan : List Bool) (scanErr : Option ScanErr),
      (statsLoop lines quitPlan scanErr).count StatEvent.closeStats = 1 ∧
      (statsLoop lines quitPlan scanErr).getLast? = some StatEvent.closeStats) := by
  constructor
  · intro input plan
    obtain ⟨pre, heq, hnot⟩ := captureLoop_shape input.length input plan le_rfl
    rw [heq]
    constructor
    · rw [List.count_append, List.count_eq_zero.mpr hnot]
      rfl
    · rw [show pre ++ [CapEvent.closeExitStatus, CapEvent.closeMessages]
          = (pre ++ [CapEvent.closeExitStatus]) ++ [CapEvent.closeMessages] by simp,
        List.getLast?_concat]
  · intro lines plan scanErr
    obtain ⟨pre, heq, hnot⟩ := statsLoop_shape lines plan scanErr
    rw [heq]
    constructor
    · rw [List.count_append, List.count_eq_zero.mpr hnot]
      rfl
    · rw [show pre ++ [StatEvent.closeExitStat, StatEvent.closeStats]
          = (pre ++ [StatEvent.closeExitStat]) ++ [StatEvent.closeStats] by simp,
        List.getLast?_concat]

/-- Claim C3 is false as stated about the failure mode: an Err frame with
an empty payload fails with io.EOF, which the codebase treats as an
I/O-level end-of-stream condition and not as a decode error: the capture
goroutine swallows it as a benign stop instead of delivering a terminal
error. -/
theorem err_nested_decode_cx :
    readPipeMsg [69, 0, 0, 1, 0] = .error .eof ∧
    PipeErr.eof ≠ PipeErr.parseError ∧
    captureLoop [69, 0, 0, 1, 0] [] = [.closeExitStatus, .closeMessages] := by
  refine ⟨by decide, by decide, ?_⟩
  rw [captureLoop_error (by decide : readPipeMsg [69, 0, 0, 1, 0] = .error .eof) []]
  rfl

/-! ## Helper lemmas about the statistics line parser -/

/-- findSplit finds the first separator. -/
theorem findSplit_append {sep : Nat} {f0 : List Nat} (h : sep ∉ f0) (rest : List Nat) :
    findSplit sep (f0 ++ sep :: rest) = some (f0, rest) := by
  induction f0 with
  | nil => simp [findSplit]
  | cons c cs ih =>
    rw [List.mem_cons] at h
    push_neg at h
    obtain ⟨h1, h2⟩ := h
    simp [findSplit, Ne.symm h1, ih h2]

/-- Inversion of findSplit: a successful split decomposes the input at the
first occurrence of the separator. -/
theorem findSplit_eq_some {sep : Nat} :
    ∀ {s a b : List Nat}, findSplit sep s = some (a, b) → s = a ++ sep :: b ∧ sep ∉ a := by
  intro s
  induction s with
  | nil =>
    intro a b h
    simp [findSplit] at h
  | cons c cs ih =>
    intro a b h
    by_cases hc : c = sep
    · simp only [findSplit, if_pos hc] at h
      injection h with h
      injection h with ha hb
      subst ha
      subst hb
      subst hc
      exact ⟨rfl, by simp⟩
    · simp only [findSplit, if_neg hc] at h
      cases hf : findSplit sep cs with
      | none =>
        rw [hf] at h
        simp at h
      | some p =>
        obtain ⟨a2, b2⟩ := p
        rw [hf] at h
        simp only [Option.some.injEq, Prod.mk.injEq] at h
        obtain ⟨ha, hb⟩ := h
        obtain ⟨hs, hnot⟩ := ih hf
        subst ha
        subst hb
        refine ⟨by simp [hs], ?_⟩
        rw [List.mem_cons]
        push_neg
        exact ⟨fun hq => hc hq.symm, hnot⟩

/-- Inversion of a three-way split. -/
theorem splitN3_inv {line c0 c1 c2 : List Nat} (h : splitN3 9 line = [c0, c1, c2]) :
    line = c0 ++ 9 :: (c1 ++ 9 :: c2) ∧ 9 ∉ c0 ∧ 9 ∉ c1 := by
  unfold splitN3 at h
  cases h1 : findSplit 9 line with
  | none =>
    rw [h1] at h
    simp at h
  | some p =>
    obtain ⟨a, b⟩ := p
    rw [h1] at h
    dsimp only at h
    cases h2 : findSplit 9 b with
    | none =>
      rw [h2] at h
      simp at h
    | some q =>
      obtain ⟨c, d⟩ := q
      rw [h2] at h
      simp only [List.cons.injEq, and_true] at h
      obtain ⟨ha, hc, hd⟩ := h
      obtain ⟨hline, hna⟩ := findSplit_eq_some h1
      obtain ⟨hb, hnc⟩ := findSplit_eq_some h2
      subst ha
      subst hc
      subst hd
      exact ⟨by rw [hline, hb], hna, hnc⟩

/-- A string that parses as a number contains no tab byte. -/
theorem parseUint10_no_tab {s : List Nat} {v : Nat} (h : parseUint10 s = some v) :
    9 ∉ s := by
  unfold parseUint10 at h
  split at h
  · exact absurd h (by simp)
  · split at h
    · rename_i hall
      intro hmem
      have h9 := List.all_eq_true.mp hall 9 hmem
      simp at h9
    · exact absurd h (by simp)

/-- A well-formed statistics line parses to exactly its three fields. -/
theorem parseStatisticsLine_shape {f0 f1 : List Nat} (h0 : 9 ∉ f0) (h1 : 9 ∉ f1)
    {f2 : List Nat} {v1 v2 : Nat}
    (hv1 : parseUint10 f1 = some v1) (hv2 : parseUint10 f2 = some v2) :
    parseStatisticsLine (f0 ++ 9 :: (f1 ++ 9 :: f2)) = .ok (f0, v1, v2) := by
  have hs : splitN3 9 (f0 ++ 9 :: (f1 ++ 9 :: f2)) = [f0, f1, f2] := by
    unfold splitN3
    rw [findSplit_append h0]
    dsimp only
    rw [findSplit_append h1]
  unfold parseStatisticsLine
  rw [hs]
  dsimp only
  rw [hv1]
  dsimp only
  rw [hv2]

/-- The statistics loop emits one statistic per good line, delivers the
first parse error exactly once and then stops: no line after the bad one
is ever examined. -/
theorem statsLoop_stops {bad : List Nat} {e : StatErr}
    (hbad : parseStatisticsLine bad = .error e) :
    ∀ (good rest : List (List Nat)) (scanErr : Option ScanErr),
      (∀ l ∈ good, ∃ r, parseStatisticsLine l = .ok r) →
      statsLoop (good ++ bad :: rest) [] scanErr =
        good.map (fun l => .sendStat (statOf l)) ++
          [.sendExitStat e, .closeExitStat, .closeStats] := by
  intro good
  induction good with
  | nil =>
    intro rest scanErr _
    simp [statsLoop, hbad]
  | cons l ls ih =>
    intro rest scanErr hgood
    obtain ⟨r, hr⟩ := hgood l (by simp)
    obtain ⟨n0, p0, d0⟩ := r
    have hmap : statOf l = ⟨n0, p0, d0⟩ := by
      unfold statOf
      rw [hr]
    rw [List.cons_append]
    simp only [statsLoop, hr]
    rw [ih rest scanErr (fun l2 hl2 => hgood l2 (by simp [hl2]))]
    simp [hmap]

/-- Claim C7: a line of exactly three tab-separated fields with numeric
second and third fields parses to exactly (name, packet count, drop
count); any other line fails to parse; and the statistics decode task
delivers the first parse error once via the terminal-error channel and
reads no further lines. -/
theorem statistics_line_and_task :
    (∀ f0 f1 f2 : List Nat, 9 ∉ f0 → 9 ∉ f1 → 9 ∉ f2 →
      ∀ v1 v2 : Nat, parseUint10 f1 = some v1 → parseUint10 f2 = some v2 →
        parseStatisticsLine (f0 ++ 9 :: (f1 ++ 9 :: f2)) = .ok (f0, v1, v2)) ∧
    (∀ line : List Nat, (∃ r, parseStatisticsLine line = .ok r) ↔
      ∃ f0 f1 f2 v1 v2, line = f0 ++ 9 :: (f1 ++ 9 :: f2) ∧ 9 ∉ f0 ∧
        parseUint10 f1 = some v1 ∧ parseUint10 f2 = some v2) ∧
    (∀ (good : List (List Nat)) (bad : List Nat) (rest : List (List Nat))
        (scanErr : Option ScanErr) (e : StatErr),
      (∀ l ∈ good, ∃ r, parseStatisticsLine l = .ok r) →
      parseStatisticsLine bad = .error e →
      statsLoop (good ++ bad :: rest) [] scanErr =
        good.map (fun l => .sendStat (statOf l)) ++
          [.sendExitStat e, .closeExitStat, .closeStats]) := by
  refine ⟨?_, ?_, ?_⟩
  · intro f0 f1 f2 h0 h1 _ v1 v2 hv1 hv2
    exact parseStatisticsLine_shape h0 h1 hv1 hv2
  · intro line
    constructor
    · rintro ⟨r, h⟩
      unfold parseStatisticsLine at h
      split at h
      · rename_i devname col1 col2 heq
        obtain ⟨hline, hn0, hn1⟩ := splitN3_inv heq
        split at h
        · exact absurd h (by simp)
        · rename_i v1 hv1
          split at h
          · exact absurd h (by simp)
          · rename_i v2 hv2
            exact ⟨devname, col1, col2, v1, v2, hline, hn0, hv1, hv2⟩
      · exact absurd h (by simp)
    · rintro ⟨f0, f1, f2, v1, v2, rfl, h0, hv1, hv2⟩
      exact ⟨(f0, v1, v2),
        parseStatisticsLine_shape h0 (parseUint10_no_tab hv1) hv1 hv2⟩
  · intro good bad rest scanErr e hgood hbad
    exact statsLoop_stops hbad good rest scanErr hgood

/-- Witness for claim C7: the line devX-tab-123-tab-456 parses exactly,
and a statistics run over that line followed by a malformed line emits one
statistic, one terminal error, and stops. -/
theorem statistics_line_and_task_w :
    parseStatisticsLine [100, 101, 118, 88, 9, 49, 50, 51, 9, 52, 53, 54] =
      .ok ([100, 101, 118, 88], 123, 456) ∧
    statsLoop [[100, 101, 118, 88, 9, 49, 50, 51, 9, 52, 53, 54],
        [102, 111, 111, 98, 97, 114], [100, 101, 118, 88, 9, 49, 50, 51, 9, 52, 53, 54]]
        [] none =
      [.sendStat ⟨[100, 101, 118, 88], 123, 456⟩, .sendExitStat .illegalOutput,
        .closeExitStat, .closeStats] := by
  obtain ⟨h1, _, h3⟩ := statistics_line_and_task
  constructor
  · simpa using h1 [100, 101, 118, 88] [49, 50, 51] [52, 53, 54]
      (by decide) (by decide) (by decide) 123 456 (by decide) (by decide)
  · have := h3 [[100, 101, 118, 88, 9, 49, 50, 51, 9, 52, 53, 54]]
      [102, 111, 111, 98, 97, 114]
      [[100, 101, 118, 88, 9, 49, 50, 51, 9, 52, 53, 54]] none .illegalOutput
      (by
        intro l hl
        simp only [List.mem_singleton] at hl
        subst hl
        exact ⟨([100, 101, 118, 88], 123, 456), by decide⟩)
      (by decide)
    simpa [statOf] using this

end Dumpcap
